import Mathlib

/-
Shallow embedding of the RAMCloud master-side durability core:
src/RpcTracker.cc (exactly-once RPC id tracker, sliding window) and
src/BackupClient.cc (segment-backup RPC client and replication facade).
Machine integers are modelled as Nat; uint32 stores are written with an
explicit modulus where the source assigns into a 32-bit field.
-/

namespace RAMCloud

/-- The value 2^32, the modulus of a uint32 store. -/
def U32 : Nat := 4294967296

/-- State of RpcTracker (fields of the class in RpcTracker.h): a circular
completion bitmap (true = result received), the watermark firstMissing and
the id counter nextRpcId.  The rpcs array of the source is a fixed array of
windowSize booleans, embedded as a list of that length. -/
structure RpcTracker where
  windowSize : Nat
  rpcs : List Bool
  firstMissing : Nat
  nextRpcId : Nat
deriving DecidableEq

/-- Modelled from the spec: the constructor and the windowSize constant live
in RpcTracker.h, which is not part of the sources.  Per the spec, the id
counter starts above the sentinel value 0 and no id is issued initially, so
firstMissing = nextRpcId = 1 and every bitmap slot is meaningless (false). -/
def RpcTracker.init (w : Nat) : RpcTracker :=
  ⟨w, List.replicate w false, 1, 1⟩

/-- The loop `while (rpcs[firstMissing % windowSize] && firstMissing < nextRpcId)
firstMissing++;` of RpcTracker::rpcFinished.  The fuel argument is the
distance nextRpcId − firstMissing, so fuel = 0 exactly when the bound
firstMissing < nextRpcId of the loop condition fails. -/
def advanceFrom (rpcs : List Bool) (w : Nat) : Nat → Nat → Nat
  | 0, fm => fm
  | n + 1, fm =>
    if rpcs.getD (fm % w) false = true then advanceFrom rpcs w n (fm + 1) else fm

/-- RpcTracker::rpcFinished.  The failing assertion
`assert(!rpcs[rpcId % windowSize])` is embedded as the none result; otherwise
the slot is set and, when rpcId == firstMissing, the watermark advances
through the run of finished slots. -/
def RpcTracker.rpcFinished (t : RpcTracker) (rpcId : Nat) : Option RpcTracker :=
  if t.rpcs.getD (rpcId % t.windowSize) false = true then
    none
  else
    let rpcs' := t.rpcs.set (rpcId % t.windowSize) true
    if t.firstMissing = rpcId then
      some { t with rpcs := rpcs',
                    firstMissing :=
                      advanceFrom rpcs' t.windowSize
                        (t.nextRpcId - (t.firstMissing + 1)) (t.firstMissing + 1) }
    else
      some { t with rpcs := rpcs' }

/-- RpcTracker::newRpcId: returns 0 when `firstMissing + windowSize == nextRpcId`,
otherwise clears the slot of nextRpcId (marks it pending) and returns
nextRpcId while incrementing it. -/
def RpcTracker.newRpcId (t : RpcTracker) : Nat × RpcTracker :=
  if t.firstMissing + t.windowSize = t.nextRpcId then
    (0, t)
  else
    (t.nextRpcId,
     { t with rpcs := t.rpcs.set (t.nextRpcId % t.windowSize) false,
              nextRpcId := t.nextRpcId + 1 })

/-- RpcTracker::ackId: returns firstMissing − 1. -/
def RpcTracker.ackId (t : RpcTracker) : Nat :=
  t.firstMissing - 1

/-- Ghost update: record id as finished in the abstract history. -/
def finUpd (fin : Nat → Bool) (id : Nat) : Nat → Bool :=
  fun x => if x = id then true else fin x

/-- One valid call on the tracker, together with the ghost set of finished
ids: either any newRpcId call, or rpcFinished on a currently pending id
(issued, i.e. positive and below nextRpcId, and not yet finished). -/
inductive Step : RpcTracker → (Nat → Bool) → RpcTracker → (Nat → Bool) → Prop
  | newRpc {t : RpcTracker} {fin : Nat → Bool} :
      Step t fin (t.newRpcId).2 fin
  | finish {t : RpcTracker} {fin : Nat → Bool} {id : Nat} {t' : RpcTracker}
      (hpos : 0 < id) (hiss : id < t.nextRpcId) (hnotfin : fin id = false)
      (hcall : t.rpcFinished id = some t') :
      Step t fin t' (finUpd fin id)

/-- A valid sequence of tracker calls (reflexive-transitive closure of Step). -/
inductive Steps : RpcTracker → (Nat → Bool) → RpcTracker → (Nat → Bool) → Prop
  | refl {t : RpcTracker} {fin : Nat → Bool} : Steps t fin t fin
  | tail {t fin t' fin' t'' fin''} :
      Steps t fin t' fin' → Step t' fin' t'' fin'' → Steps t fin t'' fin''

/-- The window invariants of the tracker, relative to the ghost history fin:
the spec's firstMissing ≤ nextRpcId, nextRpcId − firstMissing ≤ windowSize and
truthfulness of every bitmap slot in [firstMissing, nextRpcId), strengthened
by the bookkeeping facts that make them inductive. -/
structure GInv (t : RpcTracker) (fin : Nat → Bool) : Prop where
  hw : 0 < t.windowSize
  hlen : t.rpcs.length = t.windowSize
  hfm1 : 1 ≤ t.firstMissing
  hle : t.firstMissing ≤ t.nextRpcId
  hwin : t.nextRpcId - t.firstMissing ≤ t.windowSize
  hbelow : ∀ id, 0 < id → id < t.firstMissing → fin id = true
  habove : ∀ id, t.nextRpcId ≤ id → fin id = false
  htruth : ∀ id, t.firstMissing ≤ id → id < t.nextRpcId →
      t.rpcs.getD (id % t.windowSize) false = fin id
  hfmpend : t.firstMissing < t.nextRpcId → fin t.firstMissing = false

/-! Embedding of src/BackupClient.cc: the fixed-framing backup RPC client and
the replication facade.  The byte transport is abstracted as in the spec: an
operation returns the list of frames it hands to Net::Send together with its
outcome, and the one message Net::Recv yields is an input.  The received
buffer is the union view of the shared backup_rpc buffer, so every response
field is readable regardless of the type tag, as in the C union. -/

inductive RpcType where
  | heartbeatReq
  | heartbeatResp
  | writeReq
  | writeResp
  | commitReq
  | commitResp
  | freeReq
  | freeResp
  | getSegmentListReq
  | getSegmentListResp
  | getSegmentMetadataReq
  | getSegmentMetadataResp
  | retrieveReq
  | retrieveResp
  | errorResp
deriving DecidableEq

/-- One frame handed to Net::Send: the header's type tag and the declared
total length hdr.len, which is also the byte count passed to Send. -/
structure Frame where
  type : RpcType
  len : Nat
deriving DecidableEq

/-- Modelled from the spec: the wire-format constants declared in backuprpc.h,
which is not under src/ — the fixed request lengths of each operation, the
write-request overhead BACKUP_RPC_WRITE_REQ_LEN_WODATA and the maximum frame
size MAX_RPC_LEN.  The spec fixes no numeric values, only that the length
field is an unsigned 32-bit total byte count including the header, so the
constants are parameters. -/
structure WireConsts where
  heartbeatReqLen : Nat
  writeReqLenWoData : Nat
  commitReqLen : Nat
  freeReqLen : Nat
  getSegmentListReqLen : Nat
  getSegmentMetadataReqLen : Nat
  retrieveReqLen : Nat
  maxRpcLen : Nat
deriving DecidableEq

/-- The received response: the length returned by Net::Recv plus the union
view of the response buffer (header fields and every body field). -/
structure RecvMsg where
  recvLen : Nat
  hdrType : RpcType
  hdrLen : Nat
  message : String
  seg_list : List Nat
  seg_list_count : Nat
  meta_list : List (Nat × Nat)
  meta_list_count : Nat
  data : List Nat
  data_len : Nat
deriving DecidableEq

/-- Failure modes of a call: the failing assert in recvRPC, or a thrown
BackupRPCException carrying a message. -/
inductive BackupRPCError where
  | assertionFailure (got expected : Nat)
  | backupRPCException (message : String)
deriving DecidableEq

instance exceptDecEq (ε α : Type) [DecidableEq ε] [DecidableEq α] :
    DecidableEq (Except ε α) := fun a b =>
  match a, b with
  | Except.error e, Except.error e' =>
    if h : e = e' then Decidable.isTrue (by rw [h]) else
      Decidable.isFalse (fun hh => h (by cases hh; rfl))
  | Except.error _, Except.ok _ => Decidable.isFalse (fun hh => by cases hh)
  | Except.ok _, Except.error _ => Decidable.isFalse (fun hh => by cases hh)
  | Except.ok v, Except.ok v' =>
    if h : v = v' then Decidable.isTrue (by rw [h]) else
      Decidable.isFalse (fun hh => h (by cases hh; rfl))

/-- BackupHost::recvRPC: first the assertion len == hdr.len, then, if the
response is an error response, a BackupRPCException carrying the server's
message. -/
def recvRPC (m : RecvMsg) : Except BackupRPCError Unit :=
  if m.recvLen ≠ m.hdrLen then
    Except.error (BackupRPCError.assertionFailure m.recvLen m.hdrLen)
  else if m.hdrType = RpcType.errorResp then
    Except.error (BackupRPCError.backupRPCException m.message)
  else
    Except.ok ()

/-- A backup host as held by the facade; it owns its transport. -/
structure BackupHost where
  net : Nat
deriving DecidableEq

/-- BackupHost::heartbeat. -/
def BackupHost.heartbeat (k : WireConsts) (m : RecvMsg) :
    List Frame × Except BackupRPCError Unit :=
  ([⟨RpcType.heartbeatReq, k.heartbeatReqLen % U32⟩], recvRPC m)

/-- BackupHost::writeSegment: hdr.len is the uint32 store of
BACKUP_RPC_WRITE_REQ_LEN_WODATA + len; if it exceeds MAX_RPC_LEN the
exception is thrown before anything is sent, otherwise one frame of declared
length hdr.len goes out and the response is received. -/
def BackupHost.writeSegment (k : WireConsts) (segNum offset : Nat) (len : Nat)
    (m : RecvMsg) : List Frame × Except BackupRPCError Unit :=
  let hdrLen := (k.writeReqLenWoData + len) % U32
  if hdrLen > k.maxRpcLen then
    ([], Except.error (BackupRPCError.backupRPCException ("Write RPC would be too long")))
  else
    ([⟨RpcType.writeReq, hdrLen⟩], recvRPC m)

/-- BackupHost::commitSegment. -/
def BackupHost.commitSegment (k : WireConsts) (segNum : Nat) (m : RecvMsg) :
    List Frame × Except BackupRPCError Unit :=
  ([⟨RpcType.commitReq, k.commitReqLen % U32⟩], recvRPC m)

/-- BackupHost::freeSegment. -/
def BackupHost.freeSegment (k : WireConsts) (segNum : Nat) (m : RecvMsg) :
    List Frame × Except BackupRPCError Unit :=
  ([⟨RpcType.freeReq, k.freeReqLen % U32⟩], recvRPC m)

/-- BackupHost::getSegmentList: receives, reads the reported count, throws
the capacity exception when maxSize < count (before the memcpy, so the
caller's buffer is untouched), otherwise copies exactly count entries from
the response into the front of the buffer and returns count. -/
def BackupHost.getSegmentList (k : WireConsts) (list : List Nat) (maxSize : Nat)
    (m : RecvMsg) : List Frame × List Nat × Except BackupRPCError Nat :=
  let frames := [⟨RpcType.getSegmentListReq, k.getSegmentListReqLen % U32⟩]
  match recvRPC m with
  | Except.error e => (frames, list, Except.error e)
  | Except.ok _ =>
    let tmpCount := m.seg_list_count
    if maxSize < tmpCount then
      (frames, list,
       Except.error (BackupRPCError.backupRPCException
         ("Provided a segment id buffer that was too small")))
    else
      (frames,
       (List.range tmpCount).map (fun i => m.seg_list.getD i 0) ++ list.drop tmpCount,
       Except.ok tmpCount)

/-- BackupHost::getSegmentMetadata: identical structure to getSegmentList,
over the metadata list of (objectId, version) entries. -/
def BackupHost.getSegmentMetadata (k : WireConsts) (segNum : Nat)
    (list : List (Nat × Nat)) (maxSize : Nat) (m : RecvMsg) :
    List Frame × List (Nat × Nat) × Except BackupRPCError Nat :=
  let frames := [⟨RpcType.getSegmentMetadataReq, k.getSegmentMetadataReqLen % U32⟩]
  match recvRPC m with
  | Except.error e => (frames, list, Except.error e)
  | Except.ok _ =>
    let tmpCount := m.meta_list_count
    if maxSize < tmpCount then
      (frames, list,
       Except.error (BackupRPCError.backupRPCException
         ("Provided a segment id buffer that was too small")))
    else
      (frames,
       (List.range tmpCount).map (fun i => m.meta_list.getD i (0, 0)) ++ list.drop tmpCount,
       Except.ok tmpCount)

/-- BackupHost::retrieveSegment: receives and copies data_len bytes of the
response into the caller's buffer (no capacity check on the success path). -/
def BackupHost.retrieveSegment (k : WireConsts) (segNum : Nat) (buf : List Nat)
    (m : RecvMsg) : List Frame × List Nat × Except BackupRPCError Unit :=
  let frames := [⟨RpcType.retrieveReq, k.retrieveReqLen % U32⟩]
  match recvRPC m with
  | Except.error e => (frames, buf, Except.error e)
  | Except.ok _ =>
    (frames,
     (List.range m.data_len).map (fun i => m.data.getD i 0) ++ buf.drop m.data_len,
     Except.ok ())

/-- The replication facade: 0 or 1 registered BackupHost. -/
structure MultiBackupClient where
  host : Option BackupHost
deriving DecidableEq

/-- MultiBackupClient::addHost: rejects a second registration with
BackupRPCException, otherwise constructs the BackupHost owning the given
transport. -/
def MultiBackupClient.addHost (c : MultiBackupClient) (net : Nat) :
    MultiBackupClient × Except BackupRPCError Unit :=
  match c.host with
  | some _ =>
    (c, Except.error (BackupRPCError.backupRPCException
      ("Only one backup host currently supported")))
  | none => (⟨some ⟨net⟩⟩, Except.ok ())

/-- MultiBackupClient::heartbeat: forwards to the registered host if present,
no-op otherwise. -/
def MultiBackupClient.heartbeat (c : MultiBackupClient) (k : WireConsts)
    (m : RecvMsg) : List Frame × Except BackupRPCError Unit :=
  match c.host with
  | some _ => BackupHost.heartbeat k m
  | none => ([], Except.ok ())

/-! Helper lemmas about list slots and window residues. -/

theorem getD_set_same (l : List Bool) (i : Nat) (v : Bool) :
    (l.set i v).getD i v = v := by
  rcases Nat.lt_or_ge i l.length with h | h
  · simp [List.getD, List.getElem?_set_self, h]
  · simp [List.getD, List.getElem?_eq_none, h, List.set_eq_of_length_le (by simpa using h)]

theorem getD_set_self (l : List Bool) (i : Nat) (v d : Bool) (h : i < l.length) :
    (l.set i v).getD i d = v := by
  simp [List.getD, List.getElem?_set_self, h]

theorem getD_set_ne (l : List Bool) (i j : Nat) (v d : Bool) (h : i ≠ j) :
    (l.set i v).getD j d = l.getD j d := by
  simp [List.getD, List.getElem?_set_ne h]

/-- Two distinct ids lying in a common window of length at most w have
distinct residues modulo w. -/
theorem mod_ne_of_window (w lo hi a b : Nat) (hw : hi - lo ≤ w)
    (ha1 : lo ≤ a) (ha2 : a < hi) (hb1 : lo ≤ b) (hb2 : b < hi) (hne : a ≠ b) :
    a % w ≠ b % w := by
  have key : ∀ x y : Nat, lo ≤ x → x < hi → lo ≤ y → y < hi → x < y → x % w ≠ y % w := by
    intro x y hx1 hx2 hy1 hy2 hxy heq
    have hdvd : w ∣ y - x := (Nat.modEq_iff_dvd' (Nat.le_of_lt hxy)).mp heq
    have hpos : 0 < y - x := Nat.sub_pos_of_lt hxy
    have hle : w ≤ y - x := Nat.le_of_dvd hpos hdvd
    have : y - x < w := by omega
    omega
  rcases Nat.lt_or_ge a b with h | h
  · exact key a b ha1 ha2 hb1 hb2 h
  · have hba : b < a := by omega
    exact fun heq => key b a hb1 hb2 ha1 ha2 hba heq.symm

/-! Behaviour of the watermark-advance loop. -/

theorem advanceFrom_zero (rpcs : List Bool) (w j : Nat) :
    advanceFrom rpcs w 0 j = j := rfl

theorem advanceFrom_succ (rpcs : List Bool) (w n j : Nat) :
    advanceFrom rpcs w (n + 1) j =
      if rpcs.getD (j % w) false = true then advanceFrom rpcs w n (j + 1) else j := rfl

theorem advanceFrom_ge (rpcs : List Bool) (w : Nat) :
    ∀ n j, j ≤ advanceFrom rpcs w n j := by
  intro n
  induction n with
  | zero => intro j; rw [advanceFrom_zero]
  | succ n ih =>
    intro j
    by_cases hc : rpcs.getD (j % w) false = true
    · rw [advanceFrom_succ, if_pos hc]
      exact Nat.le_trans (Nat.le_succ j) (ih (j + 1))
    · rw [advanceFrom_succ, if_neg hc]

theorem advanceFrom_le (rpcs : List Bool) (w : Nat) :
    ∀ n j, advanceFrom rpcs w n j ≤ j + n := by
  intro n
  induction n with
  | zero => intro j; rw [advanceFrom_zero]; omega
  | succ n ih =>
    intro j
    by_cases hc : rpcs.getD (j % w) false = true
    · rw [advanceFrom_succ, if_pos hc]
      have := ih (j + 1)
      omega
    · rw [advanceFrom_succ, if_neg hc]
      omega

theorem advanceFrom_run (rpcs : List Bool) (w : Nat) :
    ∀ n j k, j ≤ k → k < advanceFrom rpcs w n j →
      rpcs.getD (k % w) false = true := by
  intro n
  induction n with
  | zero =>
    intro j k h1 h2
    rw [advanceFrom_zero] at h2
    omega
  | succ n ih =>
    intro j k h1 h2
    by_cases hc : rpcs.getD (j % w) false = true
    · rw [advanceFrom_succ, if_pos hc] at h2
      rcases Nat.eq_or_lt_of_le h1 with rfl | hlt
      · exact hc
      · exact ih (j + 1) k hlt h2
    · rw [advanceFrom_succ, if_neg hc] at h2
      omega

theorem advanceFrom_stop (rpcs : List Bool) (w : Nat) :
    ∀ n j, advanceFrom rpcs w n j < j + n →
      rpcs.getD (advanceFrom rpcs w n j % w) false = false := by
  intro n
  induction n with
  | zero =>
    intro j h
    rw [advanceFrom_zero] at h
    omega
  | succ n ih =>
    intro j h
    by_cases hc : rpcs.getD (j % w) false = true
    · rw [advanceFrom_succ, if_pos hc] at h ⊢
      rcases Nat.lt_or_ge (advanceFrom rpcs w n (j + 1)) (j + 1 + n) with h2 | h2
      · exact ih (j + 1) h2
      · have := advanceFrom_le rpcs w n (j + 1)
        omega
    · rw [advanceFrom_succ, if_neg hc]
      simpa using hc

/-! Inversion and invariant preservation for the tracker operations. -/

theorem rpcFinished_inv {t : RpcTracker} {id : Nat} {t' : RpcTracker}
    (h : t.rpcFinished id = some t') :
    t.rpcs.getD (id % t.windowSize) false = false ∧
    ((t.firstMissing = id ∧
        t' = { t with rpcs := t.rpcs.set (id % t.windowSize) true,
                      firstMissing :=
                        advanceFrom (t.rpcs.set (id % t.windowSize) true) t.windowSize
                          (t.nextRpcId - (t.firstMissing + 1)) (t.firstMissing + 1) }) ∨
      (t.firstMissing ≠ id ∧
        t' = { t with rpcs := t.rpcs.set (id % t.windowSize) true })) := by
  rw [RpcTracker.rpcFinished] at h
  split_ifs at h with h1 h2
  · constructor
    · simpa using h1
    · left
      exact ⟨h2, (Option.some.injEq _ _).mp h.symm⟩
  · constructor
    · simpa using h1
    · right
      exact ⟨h2, (Option.some.injEq _ _).mp h.symm⟩

theorem newRpcId_snd_full {t : RpcTracker}
    (h : t.firstMissing + t.windowSize = t.nextRpcId) : (t.newRpcId).2 = t := by
  rw [RpcTracker.newRpcId, if_pos h]

theorem newRpcId_snd_open {t : RpcTracker}
    (h : ¬ t.firstMissing + t.windowSize = t.nextRpcId) :
    (t.newRpcId).2 = { t with rpcs := t.rpcs.set (t.nextRpcId % t.windowSize) false,
                              nextRpcId := t.nextRpcId + 1 } := by
  rw [RpcTracker.newRpcId, if_neg h]

/-- Bounds and run characterisation of the advance loop when called with its
actual fuel nextRpcId − j. -/
theorem advanceFrom_bounds (rpcs : List Bool) (w j next : Nat) (hj : j ≤ next) :
    j ≤ advanceFrom rpcs w (next - j) j ∧
    advanceFrom rpcs w (next - j) j ≤ next ∧
    (∀ k, j ≤ k → k < advanceFrom rpcs w (next - j) j →
      rpcs.getD (k % w) false = true) ∧
    (advanceFrom rpcs w (next - j) j < next →
      rpcs.getD (advanceFrom rpcs w (next - j) j % w) false = false) := by
  have h1 := advanceFrom_ge rpcs w (next - j) j
  have h2 := advanceFrom_le rpcs w (next - j) j
  refine ⟨h1, by omega, advanceFrom_run rpcs w (next - j) j, ?_⟩
  intro h
  exact advanceFrom_stop rpcs w (next - j) j (by omega)

theorem GInv_newRpcId {t : RpcTracker} {fin : Nat → Bool} (inv : GInv t fin) :
    GInv (t.newRpcId).2 fin := by
  by_cases hfull : t.firstMissing + t.windowSize = t.nextRpcId
  · rw [newRpcId_snd_full hfull]; exact inv
  · rw [newRpcId_snd_open hfull]
    obtain ⟨hw, hlen, hfm1, hle, hwin, hbelow, habove, htruth, hfmpend⟩ := inv
    have hwin' : t.nextRpcId + 1 - t.firstMissing ≤ t.windowSize := by omega
    refine ⟨hw, ?_, hfm1, ?_, ?_, hbelow, ?_, ?_, ?_⟩
    · dsimp only
      simpa using hlen
    · dsimp only
      omega
    · dsimp only
      omega
    · intro x hx
      dsimp only at hx
      exact habove x (by omega)
    · intro x hx1 hx2
      dsimp only at hx1 hx2 ⊢
      by_cases hxn : x = t.nextRpcId
      · subst hxn
        rw [getD_set_same]
        exact (habove t.nextRpcId (Nat.le_refl _)).symm
      · have hxlt : x < t.nextRpcId := by omega
        have hne : t.nextRpcId % t.windowSize ≠ x % t.windowSize :=
          mod_ne_of_window t.windowSize t.firstMissing (t.nextRpcId + 1) t.nextRpcId x hwin'
            hle (by omega) hx1 (by omega) (fun hh => hxn hh.symm)
        rw [getD_set_ne _ _ _ _ _ hne]
        exact htruth x hx1 hxlt
    · intro hx
      dsimp only at hx
      by_cases hfn : t.firstMissing < t.nextRpcId
      · exact hfmpend hfn
      · exact habove t.firstMissing (by omega)

theorem GInv_rpcFinished {t : RpcTracker} {fin : Nat → Bool} {id : Nat} {t' : RpcTracker}
    (inv : GInv t fin) (hpos : 0 < id) (hiss : id < t.nextRpcId)
    (hnotfin : fin id = false) (hcall : t.rpcFinished id = some t') :
    GInv t' (finUpd fin id) := by
  obtain ⟨hw, hlen, hfm1, hle, hwin, hbelow, habove, htruth, hfmpend⟩ := inv
  have hfmle : t.firstMissing ≤ id := by
    by_contra hcon
    have := hbelow id hpos (by omega)
    rw [hnotfin] at this
    exact Bool.false_ne_true this
  obtain ⟨hslot, hcase⟩ := rpcFinished_inv hcall
  have hmodlt : id % t.windowSize < t.rpcs.length := by
    rw [hlen]; exact Nat.mod_lt _ hw
  rcases hcase with ⟨hfmid, rfl⟩ | ⟨hfmid, rfl⟩
  · -- id == firstMissing: the watermark advances through the finished run.
    obtain rfl := hfmid
    obtain ⟨hA1, hA2, hArun, hAstop⟩ :=
      advanceFrom_bounds (t.rpcs.set (t.firstMissing % t.windowSize) true) t.windowSize
        (t.firstMissing + 1) t.nextRpcId (by omega)
    have htrans : ∀ k, t.firstMissing < k → k < t.nextRpcId →
        (t.rpcs.set (t.firstMissing % t.windowSize) true).getD (k % t.windowSize) false =
          t.rpcs.getD (k % t.windowSize) false := by
      intro k hk1 hk2
      have hne : t.firstMissing % t.windowSize ≠ k % t.windowSize :=
        mod_ne_of_window t.windowSize t.firstMissing t.nextRpcId t.firstMissing k hwin
          (Nat.le_refl _) hiss (by omega) hk2 (by omega)
      exact getD_set_ne _ _ _ _ _ hne
    refine ⟨hw, ?_, ?_, ?_, ?_, ?_, ?_, ?_, ?_⟩
    · dsimp only
      simpa using hlen
    · dsimp only
      omega
    · dsimp only
      exact hA2
    · dsimp only
      omega
    · intro x hx0 hx'
      dsimp only at hx'
      by_cases hxf : x = t.firstMissing
      · subst hxf
        simp [finUpd]
      · rw [finUpd, if_neg hxf]
        by_cases hxlt : x < t.firstMissing
        · exact hbelow x hx0 hxlt
        · have hrun := hArun x (by omega) hx'
          rw [htrans x (by omega) (by omega)] at hrun
          rw [← htruth x (by omega) (by omega)]
          exact hrun
    · intro x hx
      dsimp only at hx
      rw [finUpd, if_neg (by omega)]
      exact habove x hx
    · intro x hx1 hx2
      dsimp only at hx1 hx2 ⊢
      have hxf : x ≠ t.firstMissing := by omega
      rw [finUpd, if_neg hxf, htrans x (by omega) hx2]
      exact htruth x (by omega) hx2
    · intro hx
      dsimp only at hx ⊢
      have hstop := hAstop hx
      rw [htrans _ (by omega) hx] at hstop
      rw [finUpd, if_neg (by omega), ← htruth _ (by omega) hx]
      exact hstop
  · -- id != firstMissing: only the slot of id changes.
    have hfmlt : t.firstMissing < id := by omega
    refine ⟨hw, ?_, hfm1, hle, hwin, ?_, ?_, ?_, ?_⟩
    · dsimp only
      simpa using hlen
    · intro x hx0 hx'
      dsimp only at hx'
      rw [finUpd, if_neg (by omega)]
      exact hbelow x hx0 hx'
    · intro x hx
      dsimp only at hx
      rw [finUpd, if_neg (by omega)]
      exact habove x hx
    · intro x hx1 hx2
      dsimp only at hx1 hx2 ⊢
      by_cases hxid : x = id
      · subst hxid
        rw [getD_set_self _ _ _ _ hmodlt, finUpd, if_pos rfl]
      · have hne : id % t.windowSize ≠ x % t.windowSize :=
          mod_ne_of_window t.windowSize t.firstMissing t.nextRpcId id x hwin
            hfmle hiss hx1 hx2 (fun hh => hxid hh.symm)
        rw [getD_set_ne _ _ _ _ _ hne, finUpd, if_neg hxid]
        exact htruth x hx1 hx2
    · intro hx
      dsimp only at hx ⊢
      rw [finUpd, if_neg (by omega)]
      exact hfmpend hx

theorem GInv_step {t : RpcTracker} {fin : Nat → Bool} {t' : RpcTracker} {fin' : Nat → Bool}
    (h : Step t fin t' fin') (inv : GInv t fin) : GInv t' fin' := by
  cases h with
  | newRpc => exact GInv_newRpcId inv
  | finish hpos hiss hnotfin hcall =>
    exact GInv_rpcFinished inv hpos hiss hnotfin hcall

theorem GInv_steps {t : RpcTracker} {fin : Nat → Bool} {t' : RpcTracker} {fin' : Nat → Bool}
    (h : Steps t fin t' fin') (inv : GInv t fin) : GInv t' fin' := by
  induction h with
  | refl => exact inv
  | tail hsteps hstep ih => exact GInv_step hstep ih

theorem GInv_init (w : Nat) (hw : 0 < w) :
    GInv (RpcTracker.init w) (fun _ => false) := by
  refine ⟨hw, ?_, ?_, ?_, ?_, ?_, ?_, ?_, ?_⟩
  · simp [RpcTracker.init]
  · dsimp only [RpcTracker.init]
    omega
  · dsimp only [RpcTracker.init]
    omega
  · dsimp only [RpcTracker.init]
    omega
  · intro x hx0 hx
    dsimp only [RpcTracker.init] at hx
    omega
  · intro x hx
    rfl
  · intro x hx1 hx2
    dsimp only [RpcTracker.init] at hx1 hx2
    omega
  · intro hx
    dsimp only [RpcTracker.init] at hx
    omega

/-! Monotonicity of the watermark and of the id counter along valid call
sequences. -/

theorem firstMissing_mono_step {t : RpcTracker} {fin : Nat → Bool} {t' : RpcTracker}
    {fin' : Nat → Bool} (h : Step t fin t' fin') :
    t.firstMissing ≤ t'.firstMissing := by
  cases h with
  | newRpc =>
    by_cases hfull : t.firstMissing + t.windowSize = t.nextRpcId
    · rw [newRpcId_snd_full hfull]
    · rw [newRpcId_snd_open hfull]
  | finish hpos hiss hnotfin hcall =>
    obtain ⟨hslot, hcase⟩ := rpcFinished_inv hcall
    rcases hcase with ⟨hfmid, rfl⟩ | ⟨hfmid, rfl⟩
    · obtain rfl := hfmid
      dsimp only
      have := advanceFrom_ge (t.rpcs.set (t.firstMissing % t.windowSize) true) t.windowSize
        (t.nextRpcId - (t.firstMissing + 1)) (t.firstMissing + 1)
      omega
    · dsimp only
      exact Nat.le_refl _

theorem firstMissing_mono_steps {t : RpcTracker} {fin : Nat → Bool} {t' : RpcTracker}
    {fin' : Nat → Bool} (h : Steps t fin t' fin') :
    t.firstMissing ≤ t'.firstMissing := by
  induction h with
  | refl => exact Nat.le_refl _
  | tail hsteps hstep ih => exact Nat.le_trans ih (firstMissing_mono_step hstep)

theorem nextRpcId_mono_step {t : RpcTracker} {fin : Nat → Bool} {t' : RpcTracker}
    {fin' : Nat → Bool} (h : Step t fin t' fin') :
    t.nextRpcId ≤ t'.nextRpcId := by
  cases h with
  | newRpc =>
    by_cases hfull : t.firstMissing + t.windowSize = t.nextRpcId
    · rw [newRpcId_snd_full hfull]
    · rw [newRpcId_snd_open hfull]
      dsimp only
      omega
  | finish hpos hiss hnotfin hcall =>
    obtain ⟨hslot, hcase⟩ := rpcFinished_inv hcall
    rcases hcase with ⟨hfmid, rfl⟩ | ⟨hfmid, rfl⟩ <;> exact Nat.le_refl _

theorem nextRpcId_mono_steps {t : RpcTracker} {fin : Nat → Bool} {t' : RpcTracker}
    {fin' : Nat → Bool} (h : Steps t fin t' fin') :
    t.nextRpcId ≤ t'.nextRpcId := by
  induction h with
  | refl => exact Nat.le_refl _
  | tail hsteps hstep ih => exact Nat.le_trans ih (nextRpcId_mono_step hstep)

theorem newRpcId_fst_full {t : RpcTracker}
    (h : t.firstMissing + t.windowSize = t.nextRpcId) : (t.newRpcId).1 = 0 := by
  rw [RpcTracker.newRpcId, if_pos h]

theorem newRpcId_fst_open {t : RpcTracker}
    (h : ¬ t.firstMissing + t.windowSize = t.nextRpcId) :
    (t.newRpcId).1 = t.nextRpcId := by
  rw [RpcTracker.newRpcId, if_neg h]

/-- C1: along any valid sequence of newRpcId/rpcFinished calls on a fresh
tracker, ackId() equals firstMissing − 1, is monotonically non-decreasing,
and is strictly less than every currently pending (issued but unfinished)
id. -/
theorem ackId_monotone_and_below_pending (w : Nat) (t : RpcTracker)
    (fin : Nat → Bool) (t' : RpcTracker) (fin' : Nat → Bool) (hw : 0 < w)
    (h1 : Steps (RpcTracker.init w) (fun _ => false) t fin)
    (h2 : Steps t fin t' fin') :
    t.ackId = t.firstMissing - 1 ∧
    t.ackId ≤ t'.ackId ∧
    (∀ id, 0 < id → id < t'.nextRpcId → fin' id = false → t'.ackId < id) := by
  have inv' : GInv t' fin' := GInv_steps h2 (GInv_steps h1 (GInv_init w hw))
  refine ⟨rfl, ?_, ?_⟩
  · have hm := firstMissing_mono_steps h2
    show t.firstMissing - 1 ≤ t'.firstMissing - 1
    omega
  · intro id hpos hiss hnf
    have hge : t'.firstMissing ≤ id := by
      by_contra hcon
      have := inv'.hbelow id hpos (by omega)
      rw [hnf] at this
      exact Bool.false_ne_true this
    have hfm1 := inv'.hfm1
    show t'.firstMissing - 1 < id
    omega

theorem ackId_monotone_and_below_pending_witness :
    (RpcTracker.init 4).ackId ≤ RpcTracker.ackId ⟨4, [false, true, false, false], 2, 3⟩ ∧
    RpcTracker.ackId ⟨4, [false, true, false, false], 2, 3⟩ < 2 := by
  have h := ackId_monotone_and_below_pending 4 (RpcTracker.init 4) (fun _ => false)
    ⟨4, [false, true, false, false], 2, 3⟩ (finUpd (fun _ => false) 1) (by decide)
    Steps.refl
    (Steps.tail (Steps.tail (Steps.tail Steps.refl Step.newRpc) Step.newRpc)
      (Step.finish (by decide) (by decide) rfl (by decide)))
  exact ⟨h.2.1, h.2.2 2 (by decide) (by decide) (by decide)⟩

/-- C2: on any reachable tracker state, newRpcId() returns 0 exactly when
nextRpcId − firstMissing equals windowSize; otherwise it returns a non-zero
id, marks that id's slot pending, and every later successful newRpcId call
returns a strictly greater id. -/
theorem newRpcId_zero_iff_window_full (w : Nat) (t : RpcTracker)
    (fin : Nat → Bool) (hw : 0 < w)
    (h : Steps (RpcTracker.init w) (fun _ => false) t fin) :
    ((t.newRpcId).1 = 0 ↔ t.nextRpcId - t.firstMissing = t.windowSize) ∧
    ((t.newRpcId).1 ≠ 0 →
      0 < (t.newRpcId).1 ∧
      ((t.newRpcId).2).rpcs.getD ((t.newRpcId).1 % t.windowSize) false = false ∧
      (∀ t' fin', Steps (t.newRpcId).2 fin t' fin' → (t'.newRpcId).1 ≠ 0 →
        (t.newRpcId).1 < (t'.newRpcId).1)) := by
  obtain ⟨hw', hlen, hfm1, hle, hwin, hbelow, habove, htruth, hfmpend⟩ :=
    GInv_steps h (GInv_init w hw)
  by_cases hfull : t.firstMissing + t.windowSize = t.nextRpcId
  · rw [newRpcId_fst_full hfull]
    constructor
    · constructor
      · intro h0
        omega
      · intro h0
        rfl
    · intro h0
      exact absurd rfl h0
  · rw [newRpcId_fst_open hfull]
    constructor
    · omega
    · intro h0
      refine ⟨by omega, ?_, ?_⟩
      · rw [newRpcId_snd_open hfull]
        dsimp only
        exact getD_set_same t.rpcs (t.nextRpcId % t.windowSize) false
      · intro t' fin' hsteps hnz
        have hm := nextRpcId_mono_steps hsteps
        rw [newRpcId_snd_open hfull] at hm
        dsimp only at hm
        by_cases hfull' : t'.firstMissing + t'.windowSize = t'.nextRpcId
        · exact absurd (newRpcId_fst_full hfull') hnz
        · rw [newRpcId_fst_open hfull']
          omega

theorem newRpcId_zero_iff_window_full_witness :
    ¬ ((RpcTracker.init 4).newRpcId.1 = 0) ∧
    (RpcTracker.init 4).newRpcId.1 <
      (((RpcTracker.init 4).newRpcId.2.newRpcId.2).newRpcId).1 := by
  have h := newRpcId_zero_iff_window_full 4 (RpcTracker.init 4) (fun _ => false)
    (by decide) Steps.refl
  constructor
  · intro h0
    have := h.1.mp h0
    revert this
    decide
  · exact (h.2 (by decide)).2.2 ((RpcTracker.init 4).newRpcId.2.newRpcId.2) (fun _ => false)
      (Steps.tail Steps.refl Step.newRpc) (by decide)

/-- C3 counterexample: with window size 4 and only id 1 issued (nextRpcId is
2, so 5 was never issued and 1 is pending), rpcFinished 5 is not rejected:
the assertion passes because slot 5 mod 4 = 1 reads pending, the call is
silently absorbed and marks slot 1 — the slot of the distinct pending RPC
1 — finished. -/
theorem rpcFinished_unissued_id_absorbed :
    ((RpcTracker.init 4).newRpcId.2).nextRpcId = 2 ∧
    ((RpcTracker.init 4).newRpcId.2).rpcs.getD (1 % 4) false = false ∧
    ((RpcTracker.init 4).newRpcId.2).rpcFinished 5 =
      some ⟨4, [false, true, false, false], 1, 2⟩ := by decide

/-- C3 amended: rpcFinished(id) is rejected (the assertion fails) exactly
when the bitmap slot id mod windowSize currently reads finished; an id whose
slot reads pending — including a never-issued id aliasing a pending or
meaningless slot — is accepted and marks that slot finished. -/
theorem rpcFinished_rejects_iff_slot_reads_finished (t : RpcTracker) (id : Nat) :
    t.rpcFinished id = none ↔ t.rpcs.getD (id % t.windowSize) false = true := by
  rw [RpcTracker.rpcFinished]
  split_ifs with h1 h2 <;> simp_all

/-- C4: when rpcFinished is called on firstMissing itself (a pending id) in a
reachable state, the watermark strictly advances, stays at most nextRpcId,
skips exactly over already-finished ids, and stops at a still-pending id or
at nextRpcId; moreover the concrete scenario with windowSize 4 (issue 1,2,3;
finish 2, then 1, then 3) yields ackId 0, then 2, then 3. -/
theorem rpcFinished_advances_watermark (w : Nat) (t : RpcTracker)
    (fin : Nat → Bool) (t' : RpcTracker) (hw : 0 < w)
    (h : Steps (RpcTracker.init w) (fun _ => false) t fin)
    (hlt : t.firstMissing < t.nextRpcId)
    (hcall : t.rpcFinished t.firstMissing = some t') :
    (t.firstMissing < t'.firstMissing ∧
     t'.firstMissing ≤ t.nextRpcId ∧
     (∀ k, t.firstMissing < k → k < t'.firstMissing → fin k = true) ∧
     (t'.firstMissing < t.nextRpcId → fin t'.firstMissing = false)) ∧
    ((RpcTracker.init 4).newRpcId.1 = 1 ∧
     (RpcTracker.init 4).newRpcId.2.newRpcId.1 = 2 ∧
     (RpcTracker.init 4).newRpcId.2.newRpcId.2.newRpcId.1 = 3 ∧
     (((RpcTracker.init 4).newRpcId.2.newRpcId.2.newRpcId.2).rpcFinished 2).map
        RpcTracker.ackId = some 0 ∧
     ((((RpcTracker.init 4).newRpcId.2.newRpcId.2.newRpcId.2).rpcFinished 2).bind
        (fun u => u.rpcFinished 1)).map RpcTracker.ackId = some 2 ∧
     (((((RpcTracker.init 4).newRpcId.2.newRpcId.2.newRpcId.2).rpcFinished 2).bind
        (fun u => u.rpcFinished 1)).bind (fun u => u.rpcFinished 3)).map
        RpcTracker.ackId = some 3) := by
  constructor
  · obtain ⟨hw', hlen, hfm1, hle, hwin, hbelow, habove, htruth, hfmpend⟩ :=
      GInv_steps h (GInv_init w hw)
    obtain ⟨hslot, hcase⟩ := rpcFinished_inv hcall
    rcases hcase with ⟨hfmid, rfl⟩ | ⟨hfmid, rfl⟩
    · obtain ⟨hA1, hA2, hArun, hAstop⟩ :=
        advanceFrom_bounds (t.rpcs.set (t.firstMissing % t.windowSize) true) t.windowSize
          (t.firstMissing + 1) t.nextRpcId (by omega)
      have htrans : ∀ k, t.firstMissing < k → k < t.nextRpcId →
          (t.rpcs.set (t.firstMissing % t.windowSize) true).getD (k % t.windowSize) false =
            t.rpcs.getD (k % t.windowSize) false := by
        intro k hk1 hk2
        have hne : t.firstMissing % t.windowSize ≠ k % t.windowSize :=
          mod_ne_of_window t.windowSize t.firstMissing t.nextRpcId t.firstMissing k hwin
            (Nat.le_refl _) hlt (by omega) hk2 (by omega)
        exact getD_set_ne _ _ _ _ _ hne
      refine ⟨?_, ?_, ?_, ?_⟩
      · dsimp only
        omega
      · dsimp only
        exact hA2
      · intro k hk1 hk2
        dsimp only at hk2
        have hkn : k < t.nextRpcId := by omega
        have hrun := hArun k (by omega) hk2
        rw [htrans k hk1 hkn] at hrun
        rw [← htruth k (by omega) hkn]
        exact hrun
      · intro hx
        dsimp only at hx ⊢
        have hstop := hAstop hx
        rw [htrans _ (by omega) hx] at hstop
        rw [← htruth _ (by omega) hx]
        exact hstop
    · exact absurd rfl hfmid
  · exact ⟨by decide, by decide, by decide, by decide, by decide, by decide⟩

theorem rpcFinished_advances_watermark_witness :
    RpcTracker.firstMissing ⟨4, [false, false, true, false], 1, 4⟩ <
      RpcTracker.firstMissing ⟨4, [false, true, true, false], 3, 4⟩ ∧
    RpcTracker.firstMissing ⟨4, [false, true, true, false], 3, 4⟩ ≤
      RpcTracker.nextRpcId ⟨4, [false, false, true, false], 1, 4⟩ ∧
    finUpd (finUpd (fun _ => false) 2) 1 2 = true := by
  have h := rpcFinished_advances_watermark 4 ⟨4, [false, false, true, false], 1, 4⟩
    (finUpd (fun _ => false) 2) ⟨4, [false, true, true, false], 3, 4⟩ (by decide)
    (Steps.tail
      (Steps.tail (Steps.tail (Steps.tail Steps.refl Step.newRpc) Step.newRpc) Step.newRpc)
      (Step.finish (by decide) (by decide) rfl (by decide)))
    (by decide) (by decide)
  exact ⟨h.1.1, h.1.2.1, h.1.2.2.1 2 (by decide) (by decide)⟩

/-- C5: every tracker operation preserves the window invariants (captured by
GInv relative to the ghost history fin: firstMissing ≤ nextRpcId,
nextRpcId − firstMissing ≤ windowSize, and truthfulness of every bitmap slot
for ids in [firstMissing, nextRpcId)): newRpcId always, rpcFinished under its
precondition (a pending id), and ackId, which reads firstMissing − 1 without
touching the state. -/
theorem tracker_operations_preserve_invariants (t : RpcTracker) (fin : Nat → Bool)
    (inv : GInv t fin) :
    GInv (t.newRpcId).2 fin ∧
    (∀ id t', 0 < id → id < t.nextRpcId → fin id = false →
      t.rpcFinished id = some t' → GInv t' (finUpd fin id)) ∧
    (t.ackId = t.firstMissing - 1 ∧ GInv t fin) :=
  ⟨GInv_newRpcId inv,
   fun _ _ h1 h2 h3 h4 => GInv_rpcFinished inv h1 h2 h3 h4,
   rfl, inv⟩

theorem tracker_operations_preserve_invariants_witness :
    ((RpcTracker.init 4).newRpcId.2).firstMissing ≤
      ((RpcTracker.init 4).newRpcId.2).nextRpcId ∧
    ((RpcTracker.init 4).newRpcId.2).nextRpcId -
      ((RpcTracker.init 4).newRpcId.2).firstMissing ≤
      ((RpcTracker.init 4).newRpcId.2).windowSize := by
  have h := tracker_operations_preserve_invariants (RpcTracker.init 4) (fun _ => false)
    (GInv_init 4 (by decide))
  exact ⟨h.1.hle, h.1.hwin⟩

/-! Claims about the backup RPC client. -/

/-- C6: falsified at a concrete input.  With write overhead 24 and maximum
frame size 1048576 (any values consistent with the spec behave the same), a
write of length 2^32 − 24 has true header+payload size 2^32, far above the
bound, yet the uint32 store of hdr.len wraps to 0, the pre-send check
passes, and a request frame is sent with no frame-too-large error raised. -/
theorem writeSegment_uint32_wrap_bypasses_bound :
    1048576 < 24 + 4294967272 ∧
    BackupHost.writeSegment ⟨8, 24, 16, 16, 8, 16, 16, 1048576⟩ 7 0 4294967272
        ⟨24, RpcType.writeResp, 24, "", [], 0, [], 0, [], 0⟩ =
      ([⟨RpcType.writeReq, 0⟩], Except.ok ()) := by decide

/-- C7: when the response frame is consistent and not an error response, a
reported count above maxSize makes getSegmentList (and getSegmentMetadata,
same policy) throw the capacity exception with the caller's buffer untouched,
and otherwise exactly the reported entries are copied and the reported count
returned. -/
theorem segment_list_capacity_policy (k : WireConsts) (segNum : Nat)
    (list : List Nat) (mlist : List (Nat × Nat)) (maxSize : Nat) (m : RecvMsg)
    (hrecv : m.recvLen = m.hdrLen) (htype : m.hdrType ≠ RpcType.errorResp) :
    (maxSize < m.seg_list_count →
      (BackupHost.getSegmentList k list maxSize m).2 =
        (list, Except.error (BackupRPCError.backupRPCException
          ("Provided a segment id buffer that was too small")))) ∧
    (m.seg_list_count ≤ maxSize →
      (BackupHost.getSegmentList k list maxSize m).2 =
        ((List.range m.seg_list_count).map (fun i => m.seg_list.getD i 0) ++
          list.drop m.seg_list_count,
         Except.ok m.seg_list_count)) ∧
    (maxSize < m.meta_list_count →
      (BackupHost.getSegmentMetadata k segNum mlist maxSize m).2 =
        (mlist, Except.error (BackupRPCError.backupRPCException
          ("Provided a segment id buffer that was too small")))) ∧
    (m.meta_list_count ≤ maxSize →
      (BackupHost.getSegmentMetadata k segNum mlist maxSize m).2 =
        ((List.range m.meta_list_count).map (fun i => m.meta_list.getD i (0, 0)) ++
          mlist.drop m.meta_list_count,
         Except.ok m.meta_list_count)) := by
  have hok : recvRPC m = Except.ok () := by
    rw [recvRPC, if_neg (fun hh => hh hrecv), if_neg htype]
  refine ⟨?_, ?_, ?_, ?_⟩
  · intro h
    simp [BackupHost.getSegmentList, hok, h]
  · intro h
    simp [BackupHost.getSegmentList, hok, Nat.not_lt.mpr h]
  · intro h
    simp [BackupHost.getSegmentMetadata, hok, h]
  · intro h
    simp [BackupHost.getSegmentMetadata, hok, Nat.not_lt.mpr h]

theorem segment_list_capacity_policy_witness :
    (BackupHost.getSegmentList ⟨8, 24, 16, 16, 8, 16, 16, 1048576⟩ [0, 0, 0, 0, 0] 2
        ⟨16, RpcType.getSegmentListResp, 16, "", [10, 20, 30], 3, [(1, 2)], 1, [], 0⟩).2 =
      ([0, 0, 0, 0, 0], Except.error (BackupRPCError.backupRPCException
        ("Provided a segment id buffer that was too small"))) ∧
    (BackupHost.getSegmentMetadata ⟨8, 24, 16, 16, 8, 16, 16, 1048576⟩ 9 [(5, 5), (6, 6)] 2
        ⟨16, RpcType.getSegmentListResp, 16, "", [10, 20, 30], 3, [(1, 2)], 1, [], 0⟩).2 =
      ([(1, 2), (6, 6)], Except.ok 1) := by
  have h := segment_list_capacity_policy ⟨8, 24, 16, 16, 8, 16, 16, 1048576⟩ 9
    [0, 0, 0, 0, 0] [(5, 5), (6, 6)] 2
    ⟨16, RpcType.getSegmentListResp, 16, "", [10, 20, 30], 3, [(1, 2)], 1, [], 0⟩
    rfl (by decide)
  exact ⟨h.1 (by decide), h.2.2.2 (by decide)⟩

/-- C8: on every operation that reaches its receive, a received byte length
that disagrees with the header's declared length fails the assertion in
recvRPC: the outcome is the assertion failure, never a success, and the
caller's output buffers are untouched. -/
theorem recv_length_mismatch_fatal (k : WireConsts)
    (segNum offset len maxSize : Nat) (list : List Nat) (mlist : List (Nat × Nat))
    (buf : List Nat) (m : RecvMsg) (hne : m.recvLen ≠ m.hdrLen) :
    BackupHost.heartbeat k m =
      ([⟨RpcType.heartbeatReq, k.heartbeatReqLen % U32⟩],
       Except.error (BackupRPCError.assertionFailure m.recvLen m.hdrLen)) ∧
    ((k.writeReqLenWoData + len) % U32 ≤ k.maxRpcLen →
      BackupHost.writeSegment k segNum offset len m =
        ([⟨RpcType.writeReq, (k.writeReqLenWoData + len) % U32⟩],
         Except.error (BackupRPCError.assertionFailure m.recvLen m.hdrLen))) ∧
    BackupHost.commitSegment k segNum m =
      ([⟨RpcType.commitReq, k.commitReqLen % U32⟩],
       Except.error (BackupRPCError.assertionFailure m.recvLen m.hdrLen)) ∧
    BackupHost.freeSegment k segNum m =
      ([⟨RpcType.freeReq, k.freeReqLen % U32⟩],
       Except.error (BackupRPCError.assertionFailure m.recvLen m.hdrLen)) ∧
    (BackupHost.getSegmentList k list maxSize m).2 =
      (list, Except.error (BackupRPCError.assertionFailure m.recvLen m.hdrLen)) ∧
    (BackupHost.getSegmentMetadata k segNum mlist maxSize m).2 =
      (mlist, Except.error (BackupRPCError.assertionFailure m.recvLen m.hdrLen)) ∧
    (BackupHost.retrieveSegment k segNum buf m).2 =
      (buf, Except.error (BackupRPCError.assertionFailure m.recvLen m.hdrLen)) := by
  have herr : recvRPC m =
      Except.error (BackupRPCError.assertionFailure m.recvLen m.hdrLen) := by
    rw [recvRPC, if_pos hne]
  refine ⟨?_, ?_, ?_, ?_, ?_, ?_, ?_⟩
  · simp [BackupHost.heartbeat, herr]
  · intro h
    simp [BackupHost.writeSegment, herr, Nat.not_lt.mpr h]
  · simp [BackupHost.commitSegment, herr]
  · simp [BackupHost.freeSegment, herr]
  · simp [BackupHost.getSegmentList, herr]
  · simp [BackupHost.getSegmentMetadata, herr]
  · simp [BackupHost.retrieveSegment, herr]

theorem recv_length_mismatch_fatal_witness :
    (BackupHost.getSegmentList ⟨8, 24, 16, 16, 8, 16, 16, 1048576⟩ [0, 0] 2
        ⟨12, RpcType.getSegmentListResp, 16, "", [10, 20], 2, [], 0, [], 0⟩).2 =
      ([0, 0], Except.error (BackupRPCError.assertionFailure 12 16)) ∧
    BackupHost.heartbeat ⟨8, 24, 16, 16, 8, 16, 16, 1048576⟩
        ⟨12, RpcType.getSegmentListResp, 16, "", [10, 20], 2, [], 0, [], 0⟩ =
      ([⟨RpcType.heartbeatReq, 8⟩],
       Except.error (BackupRPCError.assertionFailure 12 16)) := by
  have h := recv_length_mismatch_fatal ⟨8, 24, 16, 16, 8, 16, 16, 1048576⟩ 9 0 4 2
    [0, 0] [] [] ⟨12, RpcType.getSegmentListResp, 16, "", [10, 20], 2, [], 0, [], 0⟩
    (by decide)
  exact ⟨h.2.2.2.2.1, h.1⟩

/-- C9: addHost on a facade that already has a host throws the configuration
exception and leaves the facade unchanged — the first host stays registered
and the facade still forwards to it — while addHost on an empty facade
registers exactly the new host. -/
theorem addHost_single_host_limit (c : MultiBackupClient) (net : Nat)
    (h0 : BackupHost) (k : WireConsts) (m : RecvMsg) :
    (c.host = some h0 →
      c.addHost net =
        (c, Except.error (BackupRPCError.backupRPCException
          ("Only one backup host currently supported"))) ∧
      (c.addHost net).1.heartbeat k m = BackupHost.heartbeat k m) ∧
    (c.host = none →
      c.addHost net = (⟨some ⟨net⟩⟩, Except.ok ())) := by
  obtain ⟨ho⟩ := c
  cases ho with
  | none =>
    refine ⟨?_, ?_⟩
    · intro h
      exact absurd h (by simp)
    · intro h
      rfl
  | some b =>
    refine ⟨?_, ?_⟩
    · intro h
      exact ⟨rfl, rfl⟩
    · intro h
      exact absurd h (by simp)

theorem addHost_single_host_limit_witness :
    MultiBackupClient.addHost ⟨some ⟨7⟩⟩ 9 =
      (⟨some ⟨7⟩⟩, Except.error (BackupRPCError.backupRPCException
        ("Only one backup host currently supported"))) ∧
    MultiBackupClient.addHost ⟨none⟩ 9 = (⟨some ⟨9⟩⟩, Except.ok ()) := by
  have h1 := addHost_single_host_limit ⟨some ⟨7⟩⟩ 9 ⟨7⟩ ⟨8, 24, 16, 16, 8, 16, 16, 1048576⟩
    ⟨8, RpcType.heartbeatResp, 8, "", [], 0, [], 0, [], 0⟩
  have h2 := addHost_single_host_limit ⟨none⟩ 9 ⟨7⟩ ⟨8, 24, 16, 16, 8, 16, 16, 1048576⟩
    ⟨8, RpcType.heartbeatResp, 8, "", [], 0, [], 0, [], 0⟩
  exact ⟨(h1.1 rfl).1, h2.2 rfl⟩

/-- C10: for every request type, an explicit error response (in a consistent
frame) aborts the operation with a BackupRPCException carrying the server's
message text verbatim, and no success-path effect — in particular no
output-buffer copy — takes place. -/
theorem error_response_surfaced_verbatim (k : WireConsts)
    (segNum offset len maxSize : Nat) (list : List Nat) (mlist : List (Nat × Nat))
    (buf : List Nat) (m : RecvMsg) (hrecv : m.recvLen = m.hdrLen)
    (htype : m.hdrType = RpcType.errorResp) :
    (BackupHost.heartbeat k m).2 =
      Except.error (BackupRPCError.backupRPCException m.message) ∧
    ((k.writeReqLenWoData + len) % U32 ≤ k.maxRpcLen →
      (BackupHost.writeSegment k segNum offset len m).2 =
        Except.error (BackupRPCError.backupRPCException m.message)) ∧
    (BackupHost.commitSegment k segNum m).2 =
      Except.error (BackupRPCError.backupRPCException m.message) ∧
    (BackupHost.freeSegment k segNum m).2 =
      Except.error (BackupRPCError.backupRPCException m.message) ∧
    (BackupHost.getSegmentList k list maxSize m).2 =
      (list, Except.error (BackupRPCError.backupRPCException m.message)) ∧
    (BackupHost.getSegmentMetadata k segNum mlist maxSize m).2 =
      (mlist, Except.error (BackupRPCError.backupRPCException m.message)) ∧
    (BackupHost.retrieveSegment k segNum buf m).2 =
      (buf, Except.error (BackupRPCError.backupRPCException m.message)) := by
  have herr : recvRPC m =
      Except.error (BackupRPCError.backupRPCException m.message) := by
    rw [recvRPC, if_neg (fun hh => hh hrecv), if_pos htype]
  refine ⟨?_, ?_, ?_, ?_, ?_, ?_, ?_⟩
  · simp [BackupHost.heartbeat, herr]
  · intro h
    simp [BackupHost.writeSegment, herr, Nat.not_lt.mpr h]
  · simp [BackupHost.commitSegment, herr]
  · simp [BackupHost.freeSegment, herr]
  · simp [BackupHost.getSegmentList, herr]
  · simp [BackupHost.getSegmentMetadata, herr]
  · simp [BackupHost.retrieveSegment, herr]

theorem error_response_surfaced_verbatim_witness :
    (BackupHost.commitSegment ⟨8, 24, 16, 16, 8, 16, 16, 1048576⟩ 3
        ⟨20, RpcType.errorResp, 20, "segment closed", [], 0, [], 0, [], 0⟩).2 =
      Except.error (BackupRPCError.backupRPCException ("segment closed")) ∧
    (BackupHost.retrieveSegment ⟨8, 24, 16, 16, 8, 16, 16, 1048576⟩ 3 [0, 0]
        ⟨20, RpcType.errorResp, 20, "segment closed", [], 0, [], 0, [], 0⟩).2 =
      ([0, 0], Except.error (BackupRPCError.backupRPCException ("segment closed"))) := by
  have h := error_response_surfaced_verbatim ⟨8, 24, 16, 16, 8, 16, 16, 1048576⟩ 3 0 4 2
    [] [] [0, 0] ⟨20, RpcType.errorResp, 20, "segment closed", [], 0, [], 0, [], 0⟩
    rfl rfl
  exact ⟨h.2.2.1, h.2.2.2.2.2.2⟩

end RAMCloud
